import Mathlib

/-!
Verification of the real-time conversation messaging core of a social-platform
backend (Go), against its natural-language specification.

The development shallowly embeds:
  * the conversation store (internal/messaging/repository.go,
    PostgresRepository over the conversations / conversation_participants /
    messages tables of migrations/001_schema.sql),
  * the messaging service (internal/messaging/service.go),
  * the realtime hub and connection session (the Hub/Client code and
    internal/messaging/handlers.go).

SQL tables become Lists of rows; an SQL UPDATE is a List.map guarded by the
WHERE condition, a SELECT ... LIMIT 1 without ORDER BY is List.find? in table
order, and SERIAL ids are modelled by explicit next-id counters. Timestamps
are Nat; CURRENT_TIMESTAMP / time.Now values are passed in explicitly so that
the database-side insert time and the Go-side update time can differ, as they
do in the source. Go map objects in the hub become association lists; Go map
iteration order is not observable in any property proved here. The service
publishes broadcast events to the hub channel; the model returns the list of
published events and applies hub commands as explicit state transitions.
-/

namespace Messaging

/-- Error taxonomy of the messaging package, mirroring the sentinel errors of
repository.go. -/
inductive Err where
  | conversationNotFound
  | messageNotFound
  | notParticipant
  | unauthorized
deriving Repr, DecidableEq

/-- A row of conversation_participants. Mirrors the Participant model
(models.go): the user relation and the mute metadata carry no behaviour used
by the messaging operations, so only the columns the code reads or writes are
kept. -/
structure Participant where
  conversationID : Int
  userID : Int
  role : String
  joinedAt : Nat
  leftAt : Option Nat
  lastReadAt : Option Nat
  lastReadMessageID : Option Int
  isMuted : Bool
  isArchived : Bool
  unreadCount : Int
deriving Repr, DecidableEq

/-- A row of messages, mirroring the Message model (models.go). -/
structure Message where
  id : Int
  conversationID : Int
  senderID : Int
  parentMessageID : Option Int
  content : Option String
  messageType : String
  mediaURL : Option String
  isEdited : Bool
  editedAt : Option Nat
  isDeleted : Bool
  deletedAt : Option Nat
  createdAt : Nat
deriving Repr, DecidableEq

/-- A row of conversations, mirroring the Conversation model (models.go). -/
structure Conversation where
  id : Int
  convType : String
  name : Option String
  createdBy : Option Int
  lastMessageID : Option Int
  lastMessageAt : Option Nat
  createdAt : Nat
  updatedAt : Nat
deriving Repr, DecidableEq

/-- The durable store: the three messaging tables plus the SERIAL id
counters. -/
structure DB where
  conversations : List Conversation
  participants : List Participant
  messages : List Message
  nextConvID : Int
  nextMsgID : Int
deriving Repr, DecidableEq

/-- Request body for sending a message (SendMessageRequest in models.go). -/
structure SendMessageRequest where
  content : Option String
  messageType : String
  mediaURL : Option String
  parentMessageID : Option Int
deriving Repr, DecidableEq

/-- Request body for editing a message (UpdateMessageRequest in models.go). -/
structure UpdateMessageRequest where
  content : String
deriving Repr, DecidableEq

/-- Request body for creating a conversation (CreateConversationRequest). -/
structure CreateConversationRequest where
  convType : String
  participantIDs : List Int
  name : Option String
deriving Repr, DecidableEq

/-! ## Conversation store (PostgresRepository) -/

/-- IsParticipant: SELECT EXISTS(... WHERE conversation_id = $1 AND
user_id = $2 AND left_at IS NULL). -/
def isParticipant (db : DB) (convID userID : Int) : Bool :=
  db.participants.any fun p =>
    decide (p.conversationID = convID ∧ p.userID = userID ∧ p.leftAt = none)

/-- First participant row for the (conversation, user) pair, in table order,
with no left_at filter; the schema has UNIQUE(conversation_id, user_id). -/
def participantRow (db : DB) (convID userID : Int) : Option Participant :=
  db.participants.find? fun p =>
    decide (p.conversationID = convID ∧ p.userID = userID)

/-- First conversations row with the given id, in table order. -/
def conversationRow (db : DB) (convID : Int) : Option Conversation :=
  db.conversations.find? fun c => decide (c.id = convID)

/-- GetConversationByID: participation gate, then the row fetch. The SQL also
joins the requesting user's unread_count and loads the participant list into
the returned value; no claim mentions those enrichments, so the row itself is
returned. -/
def getConversationByID (db : DB) (convID userID : Int) : Except Err Conversation :=
  if isParticipant db convID userID then
    match conversationRow db convID with
    | none => .error .conversationNotFound
    | some c => .ok c
  else .error .notParticipant

/-- The WHERE clause of GetDirectConversation: a conversations row of type
direct joined against a participant row for each of the two users. The join
has no left_at filter. -/
def directPairMatch (db : DB) (u1 u2 : Int) (c : Conversation) : Bool :=
  decide (c.convType = "direct") &&
    (db.participants.any fun p => decide (p.conversationID = c.id ∧ p.userID = u1)) &&
    (db.participants.any fun p => decide (p.conversationID = c.id ∧ p.userID = u2))

/-- GetDirectConversation: LIMIT 1 over the pair query (first match in table
order), then GetConversationByID as requested by the first user. -/
def getDirectConversation (db : DB) (u1 u2 : Int) : Except Err Conversation :=
  match db.conversations.find? (directPairMatch db u1 u2) with
  | none => .error .conversationNotFound
  | some c => getConversationByID db c.id u1

/-- CreateConversation (repository): INSERT INTO conversations, the database
assigning id and timestamps and defaulting the last-message columns to NULL. -/
def createConversationRepo (db : DB) (convType : String) (name : Option String)
    (createdBy : Option Int) (now : Nat) : DB × Conversation :=
  let c : Conversation :=
    { id := db.nextConvID, convType := convType, name := name, createdBy := createdBy,
      lastMessageID := none, lastMessageAt := none, createdAt := now, updatedAt := now }
  ({ db with conversations := db.conversations ++ [c], nextConvID := db.nextConvID + 1 }, c)

/-- AddParticipant: INSERT ... ON CONFLICT (conversation_id, user_id) DO
UPDATE SET left_at = NULL. An empty role defaults to member; on conflict only
left_at is reset, the stored role is kept. -/
def addParticipant (db : DB) (convID userID : Int) (role : String) (now : Nat) : DB :=
  let role := if role = "" then "member" else role
  if db.participants.any (fun p => decide (p.conversationID = convID ∧ p.userID = userID)) then
    { db with participants := db.participants.map fun p =>
        if decide (p.conversationID = convID ∧ p.userID = userID) then
          { p with leftAt := none }
        else p }
  else
    { db with participants := db.participants ++
        [{ conversationID := convID, userID := userID, role := role, joinedAt := now,
           leftAt := none, lastReadAt := none, lastReadMessageID := none,
           isMuted := false, isArchived := false, unreadCount := 0 }] }

/-- RemoveParticipant: UPDATE ... SET left_at = CURRENT_TIMESTAMP. -/
def removeParticipant (db : DB) (convID userID : Int) (now : Nat) : DB :=
  { db with participants := db.participants.map fun p =>
      if decide (p.conversationID = convID ∧ p.userID = userID) then
        { p with leftAt := some now }
      else p }

/-- CreateMessage: INSERT INTO messages (the database assigning id, defaulting
is_edited / is_deleted to false and created_at to insertedAt), then UPDATE the
conversation last-message columns to the Go-side time.Now value updatedAt, then
increment unread_count WHERE conversation_id = $1 AND user_id != $2 — with no
left_at filter. -/
def createMessage (db : DB) (convID senderID : Int) (parentMessageID : Option Int)
    (content : Option String) (messageType : String) (mediaURL : Option String)
    (insertedAt updatedAt : Nat) : DB × Message :=
  let msg : Message :=
    { id := db.nextMsgID, conversationID := convID, senderID := senderID,
      parentMessageID := parentMessageID, content := content, messageType := messageType,
      mediaURL := mediaURL, isEdited := false, editedAt := none,
      isDeleted := false, deletedAt := none, createdAt := insertedAt }
  let convs := db.conversations.map fun c =>
    if decide (c.id = convID) then
      { c with lastMessageID := some msg.id, lastMessageAt := some updatedAt,
               updatedAt := updatedAt }
    else c
  let parts := db.participants.map fun p =>
    if decide (p.conversationID = convID ∧ p.userID ≠ senderID) then
      { p with unreadCount := p.unreadCount + 1 }
    else p
  ({ db with conversations := convs, participants := parts,
             messages := db.messages ++ [msg], nextMsgID := db.nextMsgID + 1 }, msg)

/-- GetMessageByID. -/
def getMessageByID (db : DB) (msgID : Int) : Except Err Message :=
  match db.messages.find? (fun m => decide (m.id = msgID)) with
  | none => .error .messageNotFound
  | some m => .ok m

/-- Insertion into a list already sorted by created_at descending. -/
def insertByCreatedDesc (m : Message) : List Message → List Message
  | [] => [m]
  | x :: xs =>
    if m.createdAt ≥ x.createdAt then m :: x :: xs else x :: insertByCreatedDesc m xs

/-- ORDER BY created_at DESC. -/
def sortByCreatedDesc (l : List Message) : List Message :=
  l.foldr insertByCreatedDesc []

/-- GetConversationMessages: participation gate; limit defaulting (a Go int
that is zero or negative becomes 50); COUNT(*) and the page both filtered by
is_deleted = FALSE; newest first, OFFSET then LIMIT. The SQL also joins the
sender user row into each message; that enrichment carries no behaviour and is
not modelled. -/
def getConversationMessages (db : DB) (convID userID : Int) (limit offset : Int) :
    Except Err (List Message × Nat) :=
  if isParticipant db convID userID then
    let limit := if limit ≤ 0 then 50 else limit
    let live := db.messages.filter fun m =>
      decide (m.conversationID = convID) && !m.isDeleted
    let total := live.length
    let page := ((sortByCreatedDesc live).drop offset.toNat).take limit.toNat
    .ok (page, total)
  else .error .notParticipant

/-- UpdateMessage: UPDATE messages SET content = $2, is_edited = TRUE,
edited_at = $3 WHERE id = $1. -/
def updateMessage (db : DB) (msgID : Int) (content : Option String) (now : Nat) : DB :=
  { db with messages := db.messages.map fun m =>
      if decide (m.id = msgID) then
        { m with content := content, isEdited := true, editedAt := some now }
      else m }

/-- DeleteMessage: UPDATE messages SET is_deleted = TRUE, deleted_at = $2,
content = NULL WHERE id = $1 — a soft delete, never a row removal. -/
def deleteMessageRepo (db : DB) (msgID : Int) (now : Nat) : DB :=
  { db with messages := db.messages.map fun m =>
      if decide (m.id = msgID) then
        { m with isDeleted := true, deletedAt := some now, content := none }
      else m }

/-- MarkAsRead: UPDATE conversation_participants SET last_read_at = $3,
last_read_message_id = $4, unread_count = 0 WHERE conversation_id = $1 AND
user_id = $2 — no participation or existence check, no left_at filter. -/
def markAsRead (db : DB) (convID userID messageID : Int) (now : Nat) : DB :=
  { db with participants := db.participants.map fun p =>
      if decide (p.conversationID = convID ∧ p.userID = userID) then
        { p with lastReadAt := some now, lastReadMessageID := some messageID,
                 unreadCount := 0 }
      else p }

/-- GetUnreadCount: SUM(unread_count) over the user's rows with
left_at IS NULL. -/
def getUnreadCount (db : DB) (userID : Int) : Int :=
  (db.participants.filter fun p =>
      decide (p.userID = userID ∧ p.leftAt = none)).foldl (fun acc p => acc + p.unreadCount) 0

/-! ## WebSocket events -/

/-- Event kinds pushed over the live channel (WSEventType in models.go). -/
inductive WSEventType where
  | newMessage
  | messageEdited
  | messageDeleted
  | typing
  | stopTyping
  | read
  | onlineStatus
  | conversationUpdated
deriving Repr, DecidableEq

/-- A live event (WSEvent in models.go). The generic Data field is used by the
service only to carry a message_id map; it is modelled as an optional id. A
field left at its Go zero value is 0 / none here. -/
structure WSEvent where
  type : WSEventType
  conversationID : Int
  userID : Int
  message : Option Message
  data : Option Int
deriving Repr, DecidableEq

/-! ## Messaging service (service.go)

Each mutating service operation returns the new store, the result the caller
sees, and the list of events it published to the hub (the publish happens only
when the hub is wired; NewHandler always wires it, so the wired case is
modelled). -/

/-- SendMessage: verify active participation, persist via CreateMessage, then
publish a new_message event. -/
def sendMessage (db : DB) (userID convID : Int) (req : SendMessageRequest)
    (insertedAt updatedAt : Nat) : DB × Except Err Message × List WSEvent :=
  if isParticipant db convID userID then
    let r := createMessage db convID userID req.parentMessageID req.content
      req.messageType req.mediaURL insertedAt updatedAt
    (r.1, .ok r.2,
      [{ type := .newMessage, conversationID := convID, userID := userID,
         message := some r.2, data := none }])
  else (db, .error .notParticipant, [])

/-- GetMessages: clamp the limit as the service does, then delegate. -/
def getMessages (db : DB) (convID userID : Int) (limit offset : Int) :
    Except Err (List Message × Nat) :=
  let limit := if limit ≤ 0 ∨ limit > 100 then 50 else limit
  getConversationMessages db convID userID limit offset

/-- EditMessage: fetch, ownership check (Unauthorized when the requester is
not the sender), persist via UpdateMessage, publish message_edited. The value
returned and broadcast is the fetched row with only its content replaced. -/
def editMessage (db : DB) (userID msgID : Int) (req : UpdateMessageRequest)
    (now : Nat) : DB × Except Err Message × List WSEvent :=
  match getMessageByID db msgID with
  | .error e => (db, .error e, [])
  | .ok msg =>
    if decide (msg.senderID = userID) then
      let msg' := { msg with content := some req.content }
      (updateMessage db msgID (some req.content) now, .ok msg',
        [{ type := .messageEdited, conversationID := msg.conversationID, userID := 0,
           message := some msg', data := none }])
    else (db, .error .unauthorized, [])

/-- DeleteMessage: fetch, ownership check, soft delete, publish
message_deleted carrying the message id as data. -/
def deleteMessage (db : DB) (userID msgID : Int) (now : Nat) :
    DB × Except Err Unit × List WSEvent :=
  match getMessageByID db msgID with
  | .error e => (db, .error e, [])
  | .ok msg =>
    if decide (msg.senderID = userID) then
      (deleteMessageRepo db msgID now, .ok (),
        [{ type := .messageDeleted, conversationID := msg.conversationID, userID := 0,
           message := none, data := some msgID }])
    else (db, .error .unauthorized, [])

/-- MarkAsRead (service): persist the cursor update, publish a read event. -/
def serviceMarkAsRead (db : DB) (convID userID messageID : Int) (now : Nat) :
    DB × Except Err Unit × List WSEvent :=
  (markAsRead db convID userID messageID now, .ok (),
    [{ type := .read, conversationID := convID, userID := userID,
       message := none, data := some messageID }])

/-- CreateConversation (service): for a direct request with exactly one
participant id, return an existing direct conversation when the lookup
succeeds; otherwise insert the conversation, add the creator as admin, add the
other participants as members, and re-read the conversation. -/
def createConversation (db : DB) (userID : Int) (req : CreateConversationRequest)
    (now : Nat) : DB × Except Err Conversation :=
  let existing : Option Conversation :=
    if req.convType = "direct" ∧ req.participantIDs.length = 1 then
      match req.participantIDs with
      | [other] => (getDirectConversation db userID other).toOption
      | _ => none
    else none
  match existing with
  | some c => (db, .ok c)
  | none =>
    let r := createConversationRepo db req.convType req.name (some userID) now
    let db2 := addParticipant r.1 r.2.id userID "admin" now
    let db3 := req.participantIDs.foldl
      (fun d pid => if decide (pid ≠ userID) then addParticipant d r.2.id pid "member" now else d)
      db2
    (db3, getConversationByID db3 r.2.id userID)

/-- GetOrCreateDirectConversation: return the existing direct conversation
when the lookup succeeds, else fall through to CreateConversation. Any lookup
error — including NotParticipant from the embedded GetConversationByID —
takes the creation path. -/
def getOrCreateDirectConversation (db : DB) (userID otherUserID : Int) (now : Nat) :
    DB × Except Err Conversation :=
  match getDirectConversation db userID otherUserID with
  | .ok c => (db, .ok c)
  | .error _ =>
    createConversation db userID
      { convType := "direct", participantIDs := [otherUserID], name := none } now

/-! ## Realtime hub

The Hub owns two Go maps (user id to set of clients, conversation id to set of
subscribed clients) and each client owns a bounded outbound channel. Maps
become association lists, client pointers become client records with a
distinct id, and a channel becomes a bounded queue with a closed flag. All
mutating hub commands are processed one at a time by the Run loop; each
command is modelled as one state transition. -/

/-- A live connection: the Go Client, whose pointer identity is modelled by
id and whose Send channel lives in HubState.queues under that id. -/
structure Client where
  id : Nat
  userID : Int
deriving Repr, DecidableEq

/-- A bounded outbound channel: buffered events, capacity, and whether close
has been called on it. -/
structure Queue where
  capacity : Nat
  buffer : List WSEvent
  closed : Bool
deriving Repr, DecidableEq

/-- The hub state: the two indexes plus every client's outbound queue. -/
structure HubState where
  clients : List (Int × List Client)
  conversations : List (Int × List Client)
  queues : List (Nat × Queue)
deriving Repr, DecidableEq

/-- Lookup in an association list (a Go map read). -/
def alookup {α β : Type} [DecidableEq α] (k : α) : List (α × β) → Option β
  | [] => none
  | e :: rest => if e.1 = k then some e.2 else alookup k rest

/-- Store under a key (a Go map write), replacing the existing entry. -/
def aset {α β : Type} [DecidableEq α] (k : α) (v : β) : List (α × β) → List (α × β)
  | [] => [(k, v)]
  | e :: rest => if e.1 = k then (k, v) :: rest else e :: aset k v rest

/-- Delete a key (a Go map delete). -/
def aremove {α β : Type} [DecidableEq α] (k : α) : List (α × β) → List (α × β)
  | [] => []
  | e :: rest => if e.1 = k then aremove k rest else e :: aremove k rest

/-- Remove one client from a client set. -/
def removeClient (c : Client) (l : List Client) : List Client :=
  l.filter fun x => decide (x ≠ c)

/-- The non-blocking channel send of broadcastToConversation: the select with
a default case appends when there is room and otherwise drops this
recipient's copy. (A send on a closed channel never happens in the states the
theorems reach; it is modelled as a drop.) -/
def tryEnqueue (q : Queue) (e : WSEvent) : Queue :=
  if !q.closed && q.buffer.length < q.capacity then
    { q with buffer := q.buffer ++ [e] }
  else q

/-- registerClient: add the client to its user's set, creating the set when
absent; Go map set semantics make repeated registration idempotent. -/
def registerClient (h : HubState) (c : Client) : HubState :=
  let cur := (alookup c.userID h.clients).getD []
  let cur' := if c ∈ cur then cur else cur ++ [c]
  { h with clients := aset c.userID cur' h.clients }

/-- unregisterClient: remove from the user index (dropping the user entry when
it becomes empty), remove from every conversation set (dropping entries that
are empty after the removal, as the range loop does), and close the client's
outbound channel. -/
def unregisterClient (h : HubState) (c : Client) : HubState :=
  let clients' :=
    match alookup c.userID h.clients with
    | none => h.clients
    | some set =>
      let set' := removeClient c set
      if set'.isEmpty then aremove c.userID h.clients else aset c.userID set' h.clients
  let convs' :=
    (h.conversations.map fun e => (e.1, removeClient c e.2)).filter fun e => !e.2.isEmpty
  let queues' := h.queues.map fun e =>
    if e.1 = c.id then (e.1, { e.2 with closed := true }) else e
  { clients := clients', conversations := convs', queues := queues' }

/-- subscribeToConversation: add the client to the conversation's subscriber
set, creating the set when absent. No persistence or participation check. -/
def subscribeToConversation (h : HubState) (convID : Int) (c : Client) : HubState :=
  let cur := (alookup convID h.conversations).getD []
  let cur' := if c ∈ cur then cur else cur ++ [c]
  { h with conversations := aset convID cur' h.conversations }

/-- unsubscribeFromConversation: remove the client from the set, dropping the
entry when it becomes empty. -/
def unsubscribeFromConversation (h : HubState) (convID : Int) (c : Client) : HubState :=
  match alookup convID h.conversations with
  | none => h
  | some set =>
    let set' := removeClient c set
    { h with conversations :=
        if set'.isEmpty then aremove convID h.conversations
        else aset convID set' h.conversations }

/-- One step of the broadcast loop: offer the event to one subscriber's
queue. -/
def enqueueStep (e : WSEvent) (qs : List (Nat × Queue)) (c : Client) : List (Nat × Queue) :=
  qs.map fun en => if en.1 = c.id then (en.1, tryEnqueue en.2 e) else en

/-- broadcastToConversation: look up the subscriber set (absent key reads as
the empty set) and offer the event to each subscriber's queue with the
non-blocking send. Only queues are touched; the indexes are read-only here. -/
def broadcastToConversation (h : HubState) (convID : Int) (e : WSEvent) : HubState :=
  let subs := (alookup convID h.conversations).getD []
  { h with queues := subs.foldl (enqueueStep e) h.queues }

/-! ## Connection session (handlers.go) -/

/-- An inbound client frame (WSIncomingMessage in models.go). -/
structure WSIncomingMessage where
  type : String
  conversationID : Int
  content : String
  messageID : Int
deriving Repr, DecidableEq

/-- One iteration of Client.readPump on a decoded frame: subscribe and
unsubscribe go straight to the hub with no participation check; typing and
stop_typing publish ephemeral events (the hub command each enqueues is applied
here as its eventual state transition); anything else is ignored. -/
def readPumpStep (h : HubState) (c : Client) (m : WSIncomingMessage) : HubState :=
  if m.type = "subscribe" then subscribeToConversation h m.conversationID c
  else if m.type = "unsubscribe" then unsubscribeFromConversation h m.conversationID c
  else if m.type = "typing" then
    broadcastToConversation h m.conversationID
      { type := .typing, conversationID := m.conversationID, userID := c.userID,
        message := none, data := none }
  else if m.type = "stop_typing" then
    broadcastToConversation h m.conversationID
      { type := .stopTyping, conversationID := m.conversationID, userID := c.userID,
        message := none, data := none }
  else h

/-- Handler.MarkAsRead: decode, call the service, and respond with success
unconditionally — the service error is discarded and no participation or
existence check is made. The Bool is the success of the HTTP response. -/
def handlerMarkAsRead (db : DB) (userID convID messageID : Int) (now : Nat) :
    DB × Bool × List WSEvent :=
  let r := serviceMarkAsRead db convID userID messageID now
  (r.1, true, r.2.2)

/-- Store for the C7 witness: one message sent by user 1. -/
def wMsg7 : Message :=
  { id := 1, conversationID := 1, senderID := 1, parentMessageID := none,
    content := some "hi", messageType := "text", mediaURL := none,
    isEdited := false, editedAt := none, isDeleted := false, deletedAt := none,
    createdAt := 10 }

def wDB7 : DB :=
  { conversations :=
      [{ id := 1, convType := "direct", name := none, createdBy := some 1,
         lastMessageID := some 1, lastMessageAt := some 10, createdAt := 1,
         updatedAt := 10 }],
    participants := [], messages := [wMsg7], nextConvID := 2, nextMsgID := 2 }

/-- Store for the C8 witness: conversation 1 exists; user 2 has a participant
row but with a leave timestamp set, so user 2 is not active. -/
def wDB8 : DB :=
  { conversations :=
      [{ id := 1, convType := "group", name := some "g", createdBy := some 1,
         lastMessageID := none, lastMessageAt := none, createdAt := 1,
         updatedAt := 1 }],
    participants :=
      [{ conversationID := 1, userID := 1, role := "admin", joinedAt := 1,
         leftAt := none, lastReadAt := none, lastReadMessageID := none,
         isMuted := false, isArchived := false, unreadCount := 0 },
       { conversationID := 1, userID := 2, role := "member", joinedAt := 1,
         leftAt := some 5, lastReadAt := none, lastReadMessageID := none,
         isMuted := false, isArchived := false, unreadCount := 0 }],
    messages := [], nextConvID := 2, nextMsgID := 1 }

def wReq8 : SendMessageRequest :=
  { content := some "hello", messageType := "text", mediaURL := none,
    parentMessageID := none }

/-- Store for the C9 witness: two active participants of conversation 1 with
nonzero unread counters. -/
def wP9a : Participant :=
  { conversationID := 1, userID := 1, role := "member", joinedAt := 1,
    leftAt := none, lastReadAt := none, lastReadMessageID := none,
    isMuted := false, isArchived := false, unreadCount := 3 }

def wP9b : Participant :=
  { conversationID := 1, userID := 2, role := "member", joinedAt := 1,
    leftAt := none, lastReadAt := none, lastReadMessageID := none,
    isMuted := false, isArchived := false, unreadCount := 4 }

def wDB9 : DB :=
  { conversations := [], participants := [wP9a, wP9b], messages := [],
    nextConvID := 1, nextMsgID := 1 }

/-- Store for the C10 witness: user 1's only row for conversation 1 has a
leave timestamp; user 5 has no row at all. -/
def wP10 : Participant :=
  { conversationID := 1, userID := 1, role := "member", joinedAt := 1,
    leftAt := some 8, lastReadAt := none, lastReadMessageID := none,
    isMuted := false, isArchived := false, unreadCount := 6 }

def wDB10 : DB :=
  { conversations := [], participants := [wP10], messages := [],
    nextConvID := 1, nextMsgID := 1 }

/-! ## Observation helpers and concrete fixture stores -/

/-- Messages for the C2 stores: two live messages in conversation 1. -/
def wMsg2a : Message :=
  { id := 1, conversationID := 1, senderID := 1, parentMessageID := none,
    content := some "first", messageType := "text", mediaURL := none,
    isEdited := false, editedAt := none, isDeleted := false, deletedAt := none,
    createdAt := 10 }

def wMsg2b : Message :=
  { id := 2, conversationID := 1, senderID := 1, parentMessageID := none,
    content := some "second", messageType := "text", mediaURL := none,
    isEdited := false, editedAt := none, isDeleted := false, deletedAt := none,
    createdAt := 20 }

/-- Store for C2: conversation 1 with active participant 1 and both messages
still live. -/
def wDB2 : DB :=
  { conversations :=
      [{ id := 1, convType := "direct", name := none, createdBy := some 1,
         lastMessageID := some 2, lastMessageAt := some 20, createdAt := 1,
         updatedAt := 20 }],
    participants :=
      [{ conversationID := 1, userID := 1, role := "admin", joinedAt := 1,
         leftAt := none, lastReadAt := none, lastReadMessageID := none,
         isMuted := false, isArchived := false, unreadCount := 0 }],
    messages := [wMsg2a, wMsg2b], nextConvID := 2, nextMsgID := 3 }

/-- Store for the C3 counterexample: conversation 42 exists and has no
participants at all. -/
def wDB3 : DB :=
  { conversations :=
      [{ id := 42, convType := "group", name := some "g", createdBy := some 1,
         lastMessageID := none, lastMessageAt := none, createdAt := 1,
         updatedAt := 1 }],
    participants := [], messages := [], nextConvID := 43, nextMsgID := 1 }

def wC3 : Client := { id := 0, userID := 7 }

def wHub3 : HubState :=
  { clients := [], conversations := [],
    queues := [(0, { capacity := 256, buffer := [], closed := false })] }

/-- Hub for the C5 witness: conversation 42 has two subscribers; client 1's
queue is full (capacity 1, one buffered event), client 2's has room. A third
client 3 is not subscribed. -/
def wC5a : Client := { id := 1, userID := 11 }

def wC5b : Client := { id := 2, userID := 12 }

def wEv5old : WSEvent :=
  { type := .typing, conversationID := 42, userID := 11, message := none, data := none }

def wEv5 : WSEvent :=
  { type := .newMessage, conversationID := 42, userID := 11, message := none, data := none }

def wQ5full : Queue := { capacity := 1, buffer := [wEv5old], closed := false }

def wQ5room : Queue := { capacity := 2, buffer := [], closed := false }

def wQ5other : Queue := { capacity := 2, buffer := [], closed := false }

def wHub5 : HubState :=
  { clients := [(11, [wC5a]), (12, [wC5b])],
    conversations := [(42, [wC5a, wC5b])],
    queues := [(1, wQ5full), (2, wQ5room), (3, wQ5other)] }

/-- Whether a client occurs in some set of an index (Bool, so witnesses can
evaluate it). -/
def clientInIndex (idx : List (Int × List Client)) (c : Client) : Bool :=
  idx.any fun en => en.2.any fun x => decide (x = c)

/-- No client with the given queue id occurs in any subscriber set. -/
def noIdIn (convs : List (Int × List Client)) (i : Nat) : Prop :=
  ∀ en ∈ convs, ∀ cl ∈ en.2, cl.id ≠ i

/-- Hub for the C6 witness: client 1 of user 10 and client 2 of user 20, both
subscribed to conversation 42; client 1 also subscribed to 43. -/
def wC6 : Client := { id := 1, userID := 10 }

def wC6d : Client := { id := 2, userID := 20 }

def wQ6 : Queue := { capacity := 256, buffer := [], closed := false }

def wEv6 : WSEvent :=
  { type := .newMessage, conversationID := 42, userID := 20, message := none, data := none }

def wHub6 : HubState :=
  { clients := [(10, [wC6]), (20, [wC6d])],
    conversations := [(42, [wC6, wC6d]), (43, [wC6])],
    queues := [(1, wQ6), (2, wQ6)] }

/-- The unread counter of the first stored row for the pair, if any. -/
def unreadCountOf (db : DB) (c u : Int) : Option Int :=
  (participantRow db c u).map fun p => p.unreadCount

/-- Store for the C1 counterexample: conversation 1 with sender 1 and active
participant 2, plus participant 3 who has left (leave timestamp set). -/
def wDB1 : DB :=
  { conversations :=
      [{ id := 1, convType := "group", name := some "g", createdBy := some 1,
         lastMessageID := none, lastMessageAt := none, createdAt := 1,
         updatedAt := 1 }],
    participants :=
      [{ conversationID := 1, userID := 1, role := "admin", joinedAt := 1,
         leftAt := none, lastReadAt := none, lastReadMessageID := none,
         isMuted := false, isArchived := false, unreadCount := 0 },
       { conversationID := 1, userID := 2, role := "member", joinedAt := 1,
         leftAt := none, lastReadAt := none, lastReadMessageID := none,
         isMuted := false, isArchived := false, unreadCount := 0 },
       { conversationID := 1, userID := 3, role := "member", joinedAt := 1,
         leftAt := some 5, lastReadAt := none, lastReadMessageID := none,
         isMuted := false, isArchived := false, unreadCount := 0 }],
    messages := [], nextConvID := 2, nextMsgID := 1 }

def wReq1 : SendMessageRequest :=
  { content := some "hi", messageType := "text", mediaURL := none,
    parentMessageID := none }

/-- The conversation row of the C1 store before the send. -/
def wConv1 : Conversation :=
  { id := 1, convType := "group", name := some "g", createdBy := some 1,
    lastMessageID := none, lastMessageAt := none, createdAt := 1, updatedAt := 1 }

/-- The conversations row CreateConversation inserts for a direct request. -/
def newDirectConv (db : DB) (a : Int) (now : Nat) : Conversation :=
  { id := db.nextConvID, convType := "direct", name := none, createdBy := some a,
    lastMessageID := none, lastMessageAt := none, createdAt := now, updatedAt := now }

/-- The creator's participant row. -/
def adminRow (cid a : Int) (now : Nat) : Participant :=
  { conversationID := cid, userID := a, role := "admin", joinedAt := now,
    leftAt := none, lastReadAt := none, lastReadMessageID := none,
    isMuted := false, isArchived := false, unreadCount := 0 }

/-- The other user's participant row. -/
def memberRow (cid b : Int) (now : Nat) : Participant :=
  { conversationID := cid, userID := b, role := "member", joinedAt := now,
    leftAt := none, lastReadAt := none, lastReadMessageID := none,
    isMuted := false, isArchived := false, unreadCount := 0 }

/-- Store for the C4 counterexample: a direct conversation between users 1
and 2 already exists (id 1), but user 1 has left it. -/
def wDB4 : DB :=
  { conversations :=
      [{ id := 1, convType := "direct", name := none, createdBy := some 1,
         lastMessageID := none, lastMessageAt := none, createdAt := 1,
         updatedAt := 1 }],
    participants :=
      [{ conversationID := 1, userID := 1, role := "admin", joinedAt := 1,
         leftAt := some 5, lastReadAt := none, lastReadMessageID := none,
         isMuted := false, isArchived := false, unreadCount := 0 },
       { conversationID := 1, userID := 2, role := "member", joinedAt := 1,
         leftAt := none, lastReadAt := none, lastReadMessageID := none,
         isMuted := false, isArchived := false, unreadCount := 0 }],
    messages := [], nextConvID := 2, nextMsgID := 1 }

/-- Empty store for the C4 witness. -/
def wDB4w : DB :=
  { conversations := [], participants := [], messages := [], nextConvID := 1,
    nextMsgID := 1 }

/-- The direct conversation the C4 witness's first call creates. -/
def wConv4 : Conversation :=
  { id := 1, convType := "direct", name := none, createdBy := some 1,
    lastMessageID := none, lastMessageAt := none, createdAt := 10, updatedAt := 10 }

/-- The store after the C4 witness's first call. -/
def wDB4r : DB :=
  { conversations := [wConv4],
    participants := [adminRow 1 1 10, memberRow 1 2 10],
    messages := [], nextConvID := 2, nextMsgID := 1 }

/-! ## General list lemmas -/

/-- find? commutes with mapping a function that does not change the predicate
value of any element. -/
theorem find?_map_pred_inv {α : Type} (g : α → α) (q : α → Bool)
    (hq : ∀ a, q (g a) = q a) :
    ∀ l : List α, (l.map g).find? q = (l.find? q).map g := by
  intro l
  induction l with
  | nil => rfl
  | cons x xs ih =>
    by_cases hx : q x = true
    · rw [List.map_cons, List.find?_cons_of_pos _ (by rw [hq]; exact hx),
        List.find?_cons_of_pos _ hx, Option.map_some']
    · have hx' : ¬ q x = true := hx
      rw [List.map_cons, List.find?_cons_of_neg _ (by rw [hq]; exact hx'),
        List.find?_cons_of_neg _ hx', ih]

/-- find? ignores a map that fixes every element satisfying the predicate and
does not change the predicate value of any element. -/
theorem find?_map_untouched {α : Type} (g : α → α) (q : α → Bool)
    (hq : ∀ a, q (g a) = q a) (hid : ∀ a, q a = true → g a = a)
    (l : List α) : (l.map g).find? q = l.find? q := by
  rw [find?_map_pred_inv g q hq l]
  cases hfind : l.find? q with
  | none => rfl
  | some a => rw [Option.map_some', hid a (List.find?_some hfind)]

/-- Mapping a function that fixes every element is the identity. -/
theorem map_id_of_fix {α : Type} (f : α → α) :
    ∀ l : List α, (∀ a ∈ l, f a = a) → l.map f = l := by
  intro l
  induction l with
  | nil => intro _; rfl
  | cons x xs ih =>
    intro h
    rw [List.map_cons, h x (List.mem_cons_self x xs),
      ih fun a ha => h a (List.mem_cons_of_mem x ha)]

/-- Membership is preserved backwards by sorted insertion. -/
theorem mem_insertByCreatedDesc {m x : Message} :
    ∀ {l : List Message}, m ∈ insertByCreatedDesc x l → m = x ∨ m ∈ l := by
  intro l
  induction l with
  | nil => intro h; simpa [insertByCreatedDesc] using h
  | cons y ys ih =>
    intro h
    by_cases hc : x.createdAt ≥ y.createdAt
    · simp only [insertByCreatedDesc, if_pos hc, List.mem_cons] at h
      rcases h with h | h | h
      · exact Or.inl h
      · exact Or.inr (List.mem_cons.mpr (Or.inl h))
      · exact Or.inr (List.mem_cons.mpr (Or.inr h))
    · simp only [insertByCreatedDesc, if_neg hc, List.mem_cons] at h
      rcases h with h | h
      · exact Or.inr (List.mem_cons.mpr (Or.inl h))
      · rcases ih h with h' | h'
        · exact Or.inl h'
        · exact Or.inr (List.mem_cons.mpr (Or.inr h'))

/-- Membership is preserved backwards by sorting. -/
theorem mem_sortByCreatedDesc {m : Message} :
    ∀ {l : List Message}, m ∈ sortByCreatedDesc l → m ∈ l := by
  intro l
  induction l with
  | nil => intro h; simp [sortByCreatedDesc] at h
  | cons x xs ih =>
    intro h
    have h' : m ∈ insertByCreatedDesc x (sortByCreatedDesc xs) := h
    rcases mem_insertByCreatedDesc h' with h'' | h''
    · exact h'' ▸ List.mem_cons_self x xs
    · exact List.mem_cons_of_mem x (ih h'')

/-! ## C7: editing or deleting another user's message -/

/-- C7: for every stored message m and every user u other than its sender,
editMessage and deleteMessage both fail with Unauthorized, the store is
unchanged (so the message keeps its content, flags, timestamps and identity),
and no event is published. -/
theorem editDelete_nonSender_unauthorized (db : DB) (u mid : Int) (msg : Message)
    (req : UpdateMessageRequest) (now : Nat)
    (h1 : getMessageByID db mid = .ok msg) (h2 : msg.senderID ≠ u) :
    editMessage db u mid req now = (db, .error .unauthorized, []) ∧
    deleteMessage db u mid now = (db, .error .unauthorized, []) := by
  constructor
  · simp [editMessage, h1, h2]
  · simp [deleteMessage, h1, h2]

/-- Witness for C7: user 2 can neither edit nor delete user 1's message. -/
theorem editDelete_nonSender_unauthorized_witness :
    getMessageByID wDB7 1 = .ok wMsg7 ∧ wMsg7.senderID ≠ 2 ∧
    editMessage wDB7 2 1 { content := "x" } 5 = (wDB7, .error .unauthorized, []) ∧
    deleteMessage wDB7 2 1 5 = (wDB7, .error .unauthorized, []) :=
  have h1 : getMessageByID wDB7 1 = .ok wMsg7 := rfl
  have h2 : wMsg7.senderID ≠ 2 := by decide
  have h := editDelete_nonSender_unauthorized wDB7 2 1 wMsg7 { content := "x" } 5 h1 h2
  ⟨h1, h2, h.1, h.2⟩

/-! ## C8: operations by a non-participant -/

/-- C8: for every user u who is not an active participant of conversation c —
no participant row, or a leave timestamp set — getConversation, listMessages
and sendMessage all fail with NotParticipant, and sendMessage leaves the store
unchanged and publishes nothing. -/
theorem nonParticipant_ops_fail (db : DB) (c u limit offset : Int)
    (req : SendMessageRequest) (t1 t2 : Nat)
    (h : isParticipant db c u = false) :
    getConversationByID db c u = .error .notParticipant ∧
    getConversationMessages db c u limit offset = .error .notParticipant ∧
    sendMessage db u c req t1 t2 = (db, .error .notParticipant, []) := by
  refine ⟨?_, ?_, ?_⟩
  · simp [getConversationByID, h]
  · simp [getConversationMessages, h]
  · simp [sendMessage, h]

/-- Witness for C8: user 2 left conversation 1, and every gated operation
fails with NotParticipant while persisting nothing. -/
theorem nonParticipant_ops_fail_witness :
    isParticipant wDB8 1 2 = false ∧
    getConversationByID wDB8 1 2 = .error .notParticipant ∧
    getConversationMessages wDB8 1 2 50 0 = .error .notParticipant ∧
    sendMessage wDB8 2 1 wReq8 7 8 = (wDB8, .error .notParticipant, []) :=
  have h : isParticipant wDB8 1 2 = false := by decide
  have hh := nonParticipant_ops_fail wDB8 1 2 50 0 wReq8 7 8 h
  ⟨h, hh.1, hh.2.1, hh.2.2⟩

/-! ## MarkAsRead row lemmas (shared by C9 and C10) -/

/-- The row MarkAsRead targets gets the cursor, timestamp and zeroed counter. -/
theorem markAsRead_row_eq (db : DB) (c u m : Int) (now : Nat) (p : Participant)
    (h : participantRow db c u = some p) :
    participantRow (markAsRead db c u m now) c u =
      some { p with lastReadAt := some now, lastReadMessageID := some m,
                    unreadCount := 0 } := by
  have hq : ∀ a : Participant,
      decide (((fun a : Participant =>
          if decide (a.conversationID = c ∧ a.userID = u) then
            { a with lastReadAt := some now, lastReadMessageID := some m,
                     unreadCount := 0 }
          else a) a).conversationID = c ∧
        ((fun a : Participant =>
          if decide (a.conversationID = c ∧ a.userID = u) then
            { a with lastReadAt := some now, lastReadMessageID := some m,
                     unreadCount := 0 }
          else a) a).userID = u) =
      decide (a.conversationID = c ∧ a.userID = u) := by
    intro a
    by_cases hg : a.conversationID = c ∧ a.userID = u <;> simp [hg]
  unfold participantRow at h ⊢
  have hpart : (markAsRead db c u m now).participants =
      db.participants.map (fun a =>
        if decide (a.conversationID = c ∧ a.userID = u) then
          { a with lastReadAt := some now, lastReadMessageID := some m,
                   unreadCount := 0 }
        else a) := rfl
  rw [hpart, find?_map_pred_inv _ _ hq, h, Option.map_some']
  have hp := List.find?_some h
  simp only [decide_eq_true_eq] at hp
  simp [hp]

/-- MarkAsRead leaves every other user's row in the same conversation
untouched. -/
theorem markAsRead_row_other_user (db : DB) (c u m : Int) (now : Nat)
    (u' : Int) (hne : u' ≠ u) :
    participantRow (markAsRead db c u m now) c u' = participantRow db c u' := by
  unfold participantRow
  have hpart : (markAsRead db c u m now).participants =
      db.participants.map (fun a =>
        if decide (a.conversationID = c ∧ a.userID = u) then
          { a with lastReadAt := some now, lastReadMessageID := some m,
                   unreadCount := 0 }
        else a) := rfl
  rw [hpart]
  apply find?_map_untouched
  · intro a
    by_cases hg : a.conversationID = c ∧ a.userID = u <;> simp [hg]
  · intro a ha
    simp only [decide_eq_true_eq] at ha
    have : ¬ (a.conversationID = c ∧ a.userID = u) := by
      intro hcon
      exact hne (ha.2 ▸ hcon.2.symm ▸ rfl)
    simp [this]

/-- MarkAsRead leaves every row of every other conversation untouched. -/
theorem markAsRead_row_other_conv (db : DB) (c u m : Int) (now : Nat)
    (c' u' : Int) (hne : c' ≠ c) :
    participantRow (markAsRead db c u m now) c' u' = participantRow db c' u' := by
  unfold participantRow
  have hpart : (markAsRead db c u m now).participants =
      db.participants.map (fun a =>
        if decide (a.conversationID = c ∧ a.userID = u) then
          { a with lastReadAt := some now, lastReadMessageID := some m,
                   unreadCount := 0 }
        else a) := rfl
  rw [hpart]
  apply find?_map_untouched
  · intro a
    by_cases hg : a.conversationID = c ∧ a.userID = u <;> simp [hg]
  · intro a ha
    simp only [decide_eq_true_eq] at ha
    have : ¬ (a.conversationID = c ∧ a.userID = u) := by
      intro hcon
      exact hne (ha.1 ▸ hcon.1.symm ▸ rfl)
    simp [this]

/-- With no participant row for the pair, MarkAsRead is the identity on the
store. -/
theorem markAsRead_noRow (db : DB) (c u m : Int) (now : Nat)
    (h : participantRow db c u = none) :
    markAsRead db c u m now = db := by
  unfold participantRow at h
  have hall := List.find?_eq_none.mp h
  have hmap : db.participants.map (fun a =>
      if decide (a.conversationID = c ∧ a.userID = u) then
        { a with lastReadAt := some now, lastReadMessageID := some m,
                 unreadCount := 0 }
      else a) = db.participants := by
    apply map_id_of_fix
    intro a ha
    have := hall a ha
    simp only [Bool.not_eq_true, decide_eq_false_iff_not] at this
    simp [this]
  show { db with participants := db.participants.map _ } = db
  rw [hmap]

/-! ## C9: markRead sets the cursor and frames other participants -/

/-- C9: for a conversation c with a participant row for user u, markRead sets
u's last-read cursor and read timestamp for c, zeroes u's unread counter, and
leaves every other participant row — other users of c, and all rows of other
conversations — unchanged; messages and conversations are untouched. -/
theorem markAsRead_cursor_and_frame (db : DB) (c u m : Int) (now : Nat)
    (p : Participant) (h : participantRow db c u = some p) :
    participantRow (markAsRead db c u m now) c u =
      some { p with lastReadAt := some now, lastReadMessageID := some m,
                    unreadCount := 0 } ∧
    (∀ u', u' ≠ u → participantRow (markAsRead db c u m now) c u' =
      participantRow db c u') ∧
    (∀ c' u', c' ≠ c → participantRow (markAsRead db c u m now) c' u' =
      participantRow db c' u') ∧
    (markAsRead db c u m now).messages = db.messages ∧
    (markAsRead db c u m now).conversations = db.conversations :=
  ⟨markAsRead_row_eq db c u m now p h,
   fun u' hne => markAsRead_row_other_user db c u m now u' hne,
   fun c' u' hne => markAsRead_row_other_conv db c u m now c' u' hne,
   rfl, rfl⟩

/-- Witness for C9: user 1 marks message 9 read in conversation 1; user 1's
cursor is set and counter zeroed while user 2's row is untouched. -/
theorem markAsRead_cursor_and_frame_witness :
    participantRow wDB9 1 1 = some wP9a ∧
    participantRow (markAsRead wDB9 1 1 9 20) 1 1 =
      some { wP9a with lastReadAt := some 20, lastReadMessageID := some 9,
                       unreadCount := 0 } ∧
    participantRow (markAsRead wDB9 1 1 9 20) 1 2 = participantRow wDB9 1 2 :=
  have h : participantRow wDB9 1 1 = some wP9a := rfl
  have t := markAsRead_cursor_and_frame wDB9 1 1 9 20 wP9a h
  ⟨h, t.1, t.2.1 2 (by decide)⟩

/-! ## C10: the markRead endpoint performs no checks -/

/-- C10: the markRead endpoint succeeds for every user, conversation and
message id — no participation or existence check is made. When a participant
row for the pair exists, even one with a leave timestamp set, the cursor is
set and the counter zeroed; when none exists the store is unchanged. -/
theorem handlerMarkAsRead_no_check (db : DB) (u c m : Int) (now : Nat) :
    (handlerMarkAsRead db u c m now).2.1 = true ∧
    (participantRow db c u = none → (handlerMarkAsRead db u c m now).1 = db) ∧
    (∀ p, participantRow db c u = some p →
      participantRow (handlerMarkAsRead db u c m now).1 c u =
        some { p with lastReadAt := some now, lastReadMessageID := some m,
                      unreadCount := 0 }) :=
  ⟨rfl,
   fun h => markAsRead_noRow db c u m now h,
   fun p h => markAsRead_row_eq db c u m now p h⟩

/-- Witness for C10: marking read succeeds both for the user with a left row
(the row is updated) and for a user with no row (the store is unchanged). -/
theorem handlerMarkAsRead_no_check_witness :
    (handlerMarkAsRead wDB10 1 1 9 20).2.1 = true ∧
    participantRow wDB10 1 1 = some wP10 ∧
    participantRow (handlerMarkAsRead wDB10 1 1 9 20).1 1 1 =
      some { wP10 with lastReadAt := some 20, lastReadMessageID := some 9,
                       unreadCount := 0 } ∧
    participantRow wDB10 1 5 = none ∧
    (handlerMarkAsRead wDB10 5 1 9 20).1 = wDB10 :=
  have hsome : participantRow wDB10 1 1 = some wP10 := rfl
  have hnone : participantRow wDB10 1 5 = none := rfl
  ⟨(handlerMarkAsRead_no_check wDB10 1 1 9 20).1, hsome,
   (handlerMarkAsRead_no_check wDB10 1 1 9 20).2.2 wP10 hsome, hnone,
   (handlerMarkAsRead_no_check wDB10 5 1 9 20).2.1 hnone⟩

/-- Counterexample to C2 as stated: soft-deleting message 2 removes it from
the listMessages page and from the reported total (2 messages before, 1
after), instead of keeping it in place with null content. -/
theorem softDelete_shrinks_listMessages :
    getConversationMessages wDB2 1 1 50 0 = .ok ([wMsg2b, wMsg2a], 2) ∧
    getConversationMessages (deleteMessageRepo wDB2 2 30) 1 1 50 0 =
      .ok ([wMsg2a], 1) := by
  constructor
  · rfl
  · rfl

/-- C2 amended: listMessages omits soft-deleted messages from both the
returned page and the reported total (both are computed over the rows with
the deleted flag unset); soft deletion itself nulls the content and sets the
deleted flag and timestamp but never removes the row. -/
theorem listMessages_excludes_deleted (db : DB) (c u limit offset : Int)
    (h : isParticipant db c u = true) :
    (∀ page total, getConversationMessages db c u limit offset = .ok (page, total) →
      (∀ m ∈ page, m.isDeleted = false ∧ m.conversationID = c) ∧
      total = (db.messages.filter fun m =>
        decide (m.conversationID = c) && !m.isDeleted).length) ∧
    (∀ mid now, (deleteMessageRepo db mid now).messages.length = db.messages.length ∧
      ∀ msg ∈ db.messages, msg.id = mid →
        ({ msg with isDeleted := true, deletedAt := some now, content := none } ∈
          (deleteMessageRepo db mid now).messages)) := by
  constructor
  · intro page total heq
    unfold getConversationMessages at heq
    rw [h] at heq
    simp only [if_true, Except.ok.injEq, Prod.mk.injEq] at heq
    obtain ⟨hpg, htot⟩ := heq
    constructor
    · intro m hm
      rw [← hpg] at hm
      have h1 : m ∈ sortByCreatedDesc (db.messages.filter fun m =>
          decide (m.conversationID = c) && !m.isDeleted) :=
        List.mem_of_mem_drop (List.mem_of_mem_take hm)
      have h2 := List.mem_filter.mp (mem_sortByCreatedDesc h1)
      have h3 := h2.2
      simp only [Bool.and_eq_true, decide_eq_true_eq, Bool.not_eq_true'] at h3
      exact ⟨h3.2, h3.1⟩
    · exact htot.symm
  · intro mid now
    constructor
    · show (db.messages.map _).length = db.messages.length
      exact List.length_map _ _
    · intro msg hmsg hid
      have hfn : ({ msg with isDeleted := true, deletedAt := some now, content := none }) =
          (fun m : Message =>
            if decide (m.id = mid) then
              { m with isDeleted := true, deletedAt := some now, content := none }
            else m) msg := by
        simp [hid]
      rw [hfn]
      exact List.mem_map_of_mem _ hmsg

/-- Witness for C2 amended: applied to the store after the soft deletion of
message 2. -/
theorem listMessages_excludes_deleted_witness :
    isParticipant (deleteMessageRepo wDB2 2 30) 1 1 = true ∧
    ({ wMsg2b with isDeleted := true, deletedAt := some 30, content := none } ∈
      (deleteMessageRepo wDB2 2 30).messages) ∧
    (deleteMessageRepo wDB2 2 30).messages.length = wDB2.messages.length :=
  have h : isParticipant wDB2 1 1 = true := by decide
  have t := listMessages_excludes_deleted wDB2 1 1 50 0 h
  ⟨by decide, (t.2 2 30).2 wMsg2b (by decide) rfl, (t.2 2 30).1⟩

/-! ## Association-list lemmas for the hub -/

/-- Lookup after storing under the same key. -/
theorem alookup_aset_self {α β : Type} [DecidableEq α] (k : α) (v : β) :
    ∀ l : List (α × β), alookup k (aset k v l) = some v := by
  intro l
  induction l with
  | nil => simp [aset, alookup]
  | cons e rest ih =>
    by_cases hk : e.1 = k
    · simp [aset, hk, alookup]
    · simp [aset, hk, alookup, ih]

/-- Lookup is unchanged by a point update at another key. -/
theorem alookup_pointUpdate_ne {α β : Type} [DecidableEq α] (k j : α) (f : β → β)
    (hne : j ≠ k) :
    ∀ l : List (α × β),
      alookup j (l.map fun en => if en.1 = k then (en.1, f en.2) else en) =
        alookup j l := by
  intro l
  induction l with
  | nil => rfl
  | cons e rest ih =>
    by_cases hk : e.1 = k
    · simp [alookup, hk, Ne.symm hne, ih]
    · by_cases hj : e.1 = j
      · simp [alookup, hk, hj, hne]
      · simp [alookup, hk, hj, ih]

/-- Lookup after a point update at the same key. -/
theorem alookup_pointUpdate_self {α β : Type} [DecidableEq α] (k : α) (f : β → β) :
    ∀ l : List (α × β),
      alookup k (l.map fun en => if en.1 = k then (en.1, f en.2) else en) =
        (alookup k l).map f := by
  intro l
  induction l with
  | nil => rfl
  | cons e rest ih =>
    by_cases hk : e.1 = k
    · simp [alookup, hk]
    · simp [alookup, hk, ih]

/-- A lookup that misses means no entry has the key. -/
theorem alookup_eq_none {α β : Type} [DecidableEq α] (k : α) :
    ∀ l : List (α × β), alookup k l = none ↔ ∀ en ∈ l, en.1 ≠ k := by
  intro l
  induction l with
  | nil => simp [alookup]
  | cons e rest ih =>
    by_cases hk : e.1 = k
    · simp [alookup, hk]
    · simp [alookup, hk, ih]

/-- A successful lookup exhibits a stored entry. -/
theorem alookup_mem {α β : Type} [DecidableEq α] (k : α) (v : β) :
    ∀ l : List (α × β), alookup k l = some v → (k, v) ∈ l := by
  intro l
  induction l with
  | nil => intro h; simp [alookup] at h
  | cons e rest ih =>
    intro h
    by_cases hk : e.1 = k
    · simp only [alookup, hk, if_pos, Option.some.injEq] at h
      have : (k, v) = e := by
        cases e with
        | mk k' v' =>
          cases hk
          cases h
          rfl
      rw [this]
      exact List.mem_cons_self e rest
    · simp only [alookup, hk, if_neg, if_false] at h
      exact List.mem_cons_of_mem e (ih h)

/-- Membership in an aset image, under distinct keys. -/
theorem mem_aset_nodup {α β : Type} [DecidableEq α] (k : α) (v : β) :
    ∀ l : List (α × β), l.Pairwise (fun x y => x.1 ≠ y.1) →
      ∀ en ∈ aset k v l, en = (k, v) ∨ (en ∈ l ∧ en.1 ≠ k) := by
  intro l
  induction l with
  | nil =>
    intro _ en hen
    simp only [aset, List.mem_singleton] at hen
    exact Or.inl hen
  | cons e rest ih =>
    intro hpw en hen
    obtain ⟨hhead, htail⟩ := List.pairwise_cons.mp hpw
    by_cases hk : e.1 = k
    · simp only [aset, hk, if_pos] at hen
      rcases List.mem_cons.mp hen with h | h
      · exact Or.inl h
      · refine Or.inr ⟨List.mem_cons_of_mem e h, ?_⟩
        have := hhead en h
        rw [hk] at this
        exact fun hc => this hc.symm
    · simp only [aset, hk, if_neg, if_false] at hen
      rcases List.mem_cons.mp hen with h | h
      · exact Or.inr ⟨h ▸ List.mem_cons_self e rest, h ▸ hk⟩
      · rcases ih htail en h with h' | ⟨h1', h2'⟩
        · exact Or.inl h'
        · exact Or.inr ⟨List.mem_cons_of_mem e h1', h2'⟩

/-- Membership in an aremove image. -/
theorem mem_aremove {α β : Type} [DecidableEq α] (k : α) :
    ∀ l : List (α × β), ∀ en ∈ aremove k l, en ∈ l ∧ en.1 ≠ k := by
  intro l
  induction l with
  | nil => intro en hen; simp [aremove] at hen
  | cons e rest ih =>
    intro en hen
    by_cases hk : e.1 = k
    · simp only [aremove, hk, if_pos] at hen
      obtain ⟨h1, h2⟩ := ih en hen
      exact ⟨List.mem_cons_of_mem e h1, h2⟩
    · simp only [aremove, hk, if_neg, if_false] at hen
      rcases List.mem_cons.mp hen with h | h
      · exact ⟨h ▸ List.mem_cons_self e rest, h ▸ hk⟩
      · obtain ⟨h1, h2⟩ := ih en h
        exact ⟨List.mem_cons_of_mem e h1, h2⟩

/-- A client never survives its own removal. -/
theorem not_mem_removeClient (c : Client) (l : List Client) :
    c ∉ removeClient c l := by
  intro h
  have := List.mem_filter.mp h
  simp at this

/-- removeClient only removes. -/
theorem mem_removeClient {c x : Client} {l : List Client}
    (h : x ∈ removeClient c l) : x ∈ l ∧ x ≠ c := by
  have := List.mem_filter.mp h
  refine ⟨this.1, ?_⟩
  have h2 := this.2
  simpa using h2

/-- Counterexample to C3 as stated: a connection of user 7 — who is not a
participant of conversation 42 — sends a subscribe frame, and the reachable
hub state has that connection in conversation 42's subscriber set: the
subscribe request was honored with no participation check. -/
theorem subscribe_nonParticipant_reachable :
    (readPumpStep (registerClient wHub3 wC3) wC3
        { type := "subscribe", conversationID := 42, content := "", messageID := 0 }
      ).conversations = [(42, [wC3])] ∧
    isParticipant wDB3 42 7 = false := by
  constructor
  · rfl
  · rfl

/-- C3 amended: a subscribe frame is honored unconditionally — processing it
adds the connection to the conversation's subscriber set with no participation
check against the store, so a conversation's subscriber set may contain
connections of non-participants. -/
theorem subscribe_unconditional (h : HubState) (c : Client) (m : WSIncomingMessage)
    (hm : m.type = "subscribe") :
    c ∈ (alookup m.conversationID (readPumpStep h c m).conversations).getD [] := by
  unfold readPumpStep
  rw [if_pos hm]
  unfold subscribeToConversation
  rw [alookup_aset_self]
  simp only [Option.getD_some]
  by_cases hc : c ∈ (alookup m.conversationID h.conversations).getD []
  · simp [hc]
  · simp [hc]

/-- Witness for C3 amended: the counterexample state again, via the general
theorem. -/
theorem subscribe_unconditional_witness :
    wC3 ∈ (alookup 42 (readPumpStep (registerClient wHub3 wC3) wC3
      { type := "subscribe", conversationID := 42, content := "", messageID := 0 }
      ).conversations).getD [] :=
  subscribe_unconditional (registerClient wHub3 wC3) wC3
    { type := "subscribe", conversationID := 42, content := "", messageID := 0 } rfl

/-! ## Broadcast queue lemmas -/

/-- One enqueue step updates exactly its subscriber's queue. -/
theorem alookup_enqueueStep_self (e : WSEvent) (c : Client) (qs : List (Nat × Queue)) :
    alookup c.id (enqueueStep e qs c) = (alookup c.id qs).map (fun q => tryEnqueue q e) :=
  alookup_pointUpdate_self c.id (fun q => tryEnqueue q e) qs

/-- One enqueue step leaves every other queue alone. -/
theorem alookup_enqueueStep_ne (e : WSEvent) (c : Client) (i : Nat) (hne : i ≠ c.id)
    (qs : List (Nat × Queue)) :
    alookup i (enqueueStep e qs c) = alookup i qs :=
  alookup_pointUpdate_ne c.id i (fun q => tryEnqueue q e) hne qs

/-- The broadcast loop leaves queues of non-subscribed ids alone. -/
theorem alookup_foldEnqueue_notin (e : WSEvent) (i : Nat) :
    ∀ (subs : List Client) (qs : List (Nat × Queue)),
      (∀ c ∈ subs, c.id ≠ i) →
      alookup i (subs.foldl (enqueueStep e) qs) = alookup i qs := by
  intro subs
  induction subs with
  | nil => intro qs _; rfl
  | cons d rest ih =>
    intro qs hall
    rw [List.foldl_cons, ih _ (fun c hc => hall c (List.mem_cons_of_mem d hc)),
      alookup_enqueueStep_ne e d i (Ne.symm (hall d (List.mem_cons_self d rest)))]

/-- The broadcast loop offers the event exactly once to each subscriber with a
distinct id. -/
theorem alookup_foldEnqueue_mem (e : WSEvent) (c : Client) :
    ∀ (subs : List Client) (qs : List (Nat × Queue)),
      c ∈ subs → (subs.Pairwise fun x y => x.id ≠ y.id) →
      alookup c.id (subs.foldl (enqueueStep e) qs) =
        (alookup c.id qs).map (fun q => tryEnqueue q e) := by
  intro subs
  induction subs with
  | nil => intro qs hmem _; cases hmem
  | cons d rest ih =>
    intro qs hmem hpw
    obtain ⟨hhead, htail⟩ := List.pairwise_cons.mp hpw
    rw [List.foldl_cons]
    rcases List.mem_cons.mp hmem with rfl | hmem'
    · rw [alookup_foldEnqueue_notin e c.id rest _
        (fun x hx => Ne.symm (hhead x hx)), alookup_enqueueStep_self]
    · rw [ih _ hmem' htail,
        alookup_enqueueStep_ne e d c.id (Ne.symm (hhead c hmem')) qs]

/-! ## C5: broadcast with no subscribers, and drop-on-full -/

/-- C5: broadcasting to a conversation never touches either index; with no
subscribed connection it is a no-op on the whole hub state; each subscriber
with queue capacity gets the event appended to its queue while a subscriber
with a full (or closed) queue keeps its queue unchanged — the drop affects
only that recipient; and queues of ids that are not subscribed are untouched.
The distinct-id hypothesis reflects that Go clients are distinct pointers. -/
theorem broadcast_noop_and_drop (h : HubState) (cid : Int) (e : WSEvent)
    (hnodup : ((alookup cid h.conversations).getD []).Pairwise fun x y => x.id ≠ y.id) :
    (broadcastToConversation h cid e).clients = h.clients ∧
    (broadcastToConversation h cid e).conversations = h.conversations ∧
    (alookup cid h.conversations = none → broadcastToConversation h cid e = h) ∧
    (∀ c ∈ (alookup cid h.conversations).getD [], ∀ q, alookup c.id h.queues = some q →
      alookup c.id (broadcastToConversation h cid e).queues =
        some (if q.closed = false ∧ q.buffer.length < q.capacity then
          { q with buffer := q.buffer ++ [e] } else q)) ∧
    (∀ i : Nat, (∀ c ∈ (alookup cid h.conversations).getD [], c.id ≠ i) →
      alookup i (broadcastToConversation h cid e).queues = alookup i h.queues) := by
  refine ⟨rfl, rfl, ?_, ?_, ?_⟩
  · intro hn
    simp [broadcastToConversation, hn]
  · intro c hc q hq
    have := alookup_foldEnqueue_mem e c _ h.queues hc hnodup
    unfold broadcastToConversation
    rw [this, hq, Option.map_some']
    have : tryEnqueue q e =
        if q.closed = false ∧ q.buffer.length < q.capacity then
          { q with buffer := q.buffer ++ [e] } else q := by
      by_cases h1 : q.closed <;> by_cases h2 : q.buffer.length < q.capacity <;>
        simp [tryEnqueue, h1, h2]
    rw [this]
  · intro i hi
    unfold broadcastToConversation
    exact alookup_foldEnqueue_notin e i _ h.queues hi

/-- Witness for C5: the full queue drops the event, the queue with room
receives it, the unsubscribed queue and a conversation with no subscribers are
untouched. -/
theorem broadcast_noop_and_drop_witness :
    alookup wC5a.id (broadcastToConversation wHub5 42 wEv5).queues = some wQ5full ∧
    alookup wC5b.id (broadcastToConversation wHub5 42 wEv5).queues =
      some { wQ5room with buffer := [wEv5] } ∧
    alookup 3 (broadcastToConversation wHub5 42 wEv5).queues = some wQ5other ∧
    broadcastToConversation wHub5 99 wEv5 = wHub5 := by
  have hnodup : ((alookup (42:Int) wHub5.conversations).getD []).Pairwise
      (fun x y => x.id ≠ y.id) := by
    simp [wHub5, alookup, wC5a, wC5b]
  have t := broadcast_noop_and_drop wHub5 42 wEv5 hnodup
  have hnodup99 : ((alookup (99:Int) wHub5.conversations).getD []).Pairwise
      (fun x y => x.id ≠ y.id) := by
    simp [wHub5, alookup]
  have t99 := broadcast_noop_and_drop wHub5 99 wEv5 hnodup99
  refine ⟨?_, ?_, ?_, ?_⟩
  · have := t.2.2.2.1 wC5a (by decide) wQ5full rfl
    rw [this]
    decide
  · have := t.2.2.2.1 wC5b (by decide) wQ5room rfl
    rw [this]
    decide
  · exact t.2.2.2.2 3 (by decide)
  · exact t99.2.2.1 rfl

/-- Absence from every set of an index. -/
theorem clientInIndex_eq_false (idx : List (Int × List Client)) (c : Client)
    (h : ∀ en ∈ idx, c ∉ en.2) : clientInIndex idx c = false := by
  rw [clientInIndex, List.any_eq_false]
  intro en hen hany
  obtain ⟨x, hx, hxc⟩ := List.any_eq_true.mp hany
  simp only [decide_eq_true_eq] at hxc
  exact h en hen (hxc ▸ hx)

/-- After unregister, no subscriber anywhere carries the unregistered
connection's queue id (ids are unique to one client record). -/
theorem noIdIn_unregister (h : HubState) (c : Client)
    (hwfIds : ∀ en ∈ h.conversations, ∀ cl ∈ en.2, cl.id = c.id → cl = c) :
    noIdIn (unregisterClient h c).conversations c.id := by
  intro en hen cl hcl hid
  have hconv : (unregisterClient h c).conversations =
      (h.conversations.map fun e => (e.1, removeClient c e.2)).filter
        (fun e => !e.2.isEmpty) := rfl
  rw [hconv] at hen
  have hen' := List.mem_filter.mp hen
  obtain ⟨orig, horig, heq⟩ := List.mem_map.mp hen'.1
  rw [← heq] at hcl
  obtain ⟨hclo, hclne⟩ := mem_removeClient hcl
  exact hclne (hwfIds orig horig cl hclo hid)

/-- A broadcast sequence neither touches a queue whose id is subscribed
nowhere nor changes the subscription index. -/
theorem foldBroadcast_frame (i : Nat) :
    ∀ (bs : List (Int × WSEvent)) (st : HubState), noIdIn st.conversations i →
      alookup i ((bs.foldl (fun s b => broadcastToConversation s b.1 b.2) st)).queues =
        alookup i st.queues ∧
      ((bs.foldl (fun s b => broadcastToConversation s b.1 b.2) st)).conversations =
        st.conversations := by
  intro bs
  induction bs with
  | nil => intro st _; exact ⟨rfl, rfl⟩
  | cons b rest ih =>
    intro st hno
    have hconvs : (broadcastToConversation st b.1 b.2).conversations =
        st.conversations := rfl
    have hstep : alookup i (broadcastToConversation st b.1 b.2).queues =
        alookup i st.queues := by
      unfold broadcastToConversation
      apply alookup_foldEnqueue_notin
      intro c' hc'
      cases halo : alookup b.1 st.conversations with
      | none => rw [halo] at hc'; cases hc'
      | some s =>
        rw [halo] at hc'
        exact hno (b.1, s) (alookup_mem b.1 s st.conversations halo) c' hc'
    have hno' : noIdIn (broadcastToConversation st b.1 b.2).conversations i := by
      rw [hconvs]; exact hno
    obtain ⟨ihq, ihc⟩ := ih (broadcastToConversation st b.1 b.2) hno'
    exact ⟨by rw [List.foldl_cons, ihq, hstep], by rw [List.foldl_cons, ihc, hconvs]⟩

/-- C6: after unregister, the connection is absent from the user index and
from every conversation's subscriber set, its outbound queue is closed, and no
subsequently processed sequence of broadcasts changes its queue or re-adds it.
The hypotheses are hub well-formedness: user-index keys are distinct, every
client is indexed under its own user, and no distinct client record shares the
connection's id (Go clients are distinct pointers). -/
theorem unregister_silences (h : HubState) (c : Client)
    (hkeys : h.clients.Pairwise fun x y => x.1 ≠ y.1)
    (hwfUsers : ∀ en ∈ h.clients, ∀ cl ∈ en.2, cl.userID = en.1)
    (hwfIds : ∀ en ∈ h.conversations, ∀ cl ∈ en.2, cl.id = c.id → cl = c) :
    clientInIndex (unregisterClient h c).clients c = false ∧
    clientInIndex (unregisterClient h c).conversations c = false ∧
    (∀ q, alookup c.id h.queues = some q →
      alookup c.id (unregisterClient h c).queues = some { q with closed := true }) ∧
    (∀ bs : List (Int × WSEvent),
      alookup c.id ((bs.foldl (fun s b => broadcastToConversation s b.1 b.2)
        (unregisterClient h c))).queues = alookup c.id (unregisterClient h c).queues ∧
      clientInIndex ((bs.foldl (fun s b => broadcastToConversation s b.1 b.2)
        (unregisterClient h c))).conversations c = false) := by
  have habsConv : ∀ en ∈ (unregisterClient h c).conversations, c ∉ en.2 := by
    intro en hen hc
    have hconv : (unregisterClient h c).conversations =
        (h.conversations.map fun e => (e.1, removeClient c e.2)).filter
          (fun e => !e.2.isEmpty) := rfl
    rw [hconv] at hen
    have hen' := List.mem_filter.mp hen
    obtain ⟨orig, _, heq⟩ := List.mem_map.mp hen'.1
    rw [← heq] at hc
    exact not_mem_removeClient c orig.2 hc
  have habsCl : ∀ en ∈ (unregisterClient h c).clients, c ∉ en.2 := by
    intro en hen hc
    have hcl : (unregisterClient h c).clients =
        (match alookup c.userID h.clients with
         | none => h.clients
         | some set =>
           let set' := removeClient c set
           if set'.isEmpty then aremove c.userID h.clients
           else aset c.userID set' h.clients) := rfl
    cases halo : alookup c.userID h.clients with
    | none =>
      rw [hcl, halo] at hen
      exact (alookup_eq_none c.userID h.clients).mp halo en hen (hwfUsers en hen c hc).symm
    | some set =>
      rw [hcl, halo] at hen
      simp only at hen
      by_cases hemp : (removeClient c set).isEmpty
      · rw [if_pos hemp] at hen
        obtain ⟨hin, hne⟩ := mem_aremove c.userID h.clients en hen
        exact hne (hwfUsers en hin c hc).symm
      · rw [if_neg hemp] at hen
        rcases mem_aset_nodup c.userID (removeClient c set) h.clients hkeys en hen with
          heq | ⟨hin, hne⟩
        · rw [heq] at hc
          exact not_mem_removeClient c set hc
        · exact hne (hwfUsers en hin c hc).symm
  refine ⟨clientInIndex_eq_false _ c habsCl, clientInIndex_eq_false _ c habsConv, ?_, ?_⟩
  · intro q hq
    have hpoint := alookup_pointUpdate_self (β := Queue) c.id
      (fun qq => { qq with closed := true }) h.queues
    rw [hq, Option.map_some'] at hpoint
    exact hpoint
  · intro bs
    have hno := noIdIn_unregister h c hwfIds
    obtain ⟨h1, h2⟩ := foldBroadcast_frame c.id bs (unregisterClient h c) hno
    refine ⟨h1, ?_⟩
    rw [h2]
    exact clientInIndex_eq_false _ c habsConv

/-- Witness for C6: after unregistering client 1 its queue is closed, it is in
no index, and a later broadcast to 42 does not change its queue. -/
theorem unregister_silences_witness :
    clientInIndex (unregisterClient wHub6 wC6).clients wC6 = false ∧
    clientInIndex (unregisterClient wHub6 wC6).conversations wC6 = false ∧
    alookup wC6.id (unregisterClient wHub6 wC6).queues =
      some { wQ6 with closed := true } ∧
    alookup wC6.id (([((42:Int), wEv6)]).foldl
        (fun s b => broadcastToConversation s b.1 b.2)
        (unregisterClient wHub6 wC6)).queues =
      alookup wC6.id (unregisterClient wHub6 wC6).queues :=
  have t := unregister_silences wHub6 wC6 (by decide) (by decide) (by decide)
  ⟨t.1, t.2.1, t.2.2.1 wQ6 rfl, (t.2.2.2 [((42:Int), wEv6)]).1⟩

/-- Counterexample to C1 as stated: user 3 has left conversation 1 and is not
an active participant, yet a successful send by user 1 increments user 3's
unread counter from 0 to 1 — the increment is not restricted to active
participants. -/
theorem sendMessage_increments_left_participant :
    isParticipant wDB1 1 3 = false ∧
    unreadCountOf wDB1 1 3 = some 0 ∧
    unreadCountOf (sendMessage wDB1 1 1 wReq1 10 11).1 1 3 = some 1 := by
  refine ⟨rfl, rfl, rfl⟩

/-- C1 amended: a successful sendMessage by sender s into conversation c
creates the message with a fresh id and the insert-time creation timestamp,
sets c's last-message pointer to the new message and the last-message
timestamp to the Go-side time of the update, leaves the sender's unread
counter unchanged, increments the unread counter of every other participant
row of c by exactly 1 — including rows whose leave timestamp is set, since the
increment has no active-participant filter — and leaves rows of other
conversations unchanged. -/
theorem sendMessage_unread_and_pointer (db : DB) (c s : Int) (req : SendMessageRequest)
    (t1 t2 : Nat) (h : isParticipant db c s = true) :
    ∃ msg, (sendMessage db s c req t1 t2).2.1 = .ok msg ∧
      msg.id = db.nextMsgID ∧ msg.conversationID = c ∧ msg.senderID = s ∧
      msg.createdAt = t1 ∧
      (∀ cv, conversationRow db c = some cv →
        conversationRow (sendMessage db s c req t1 t2).1 c =
          some { cv with lastMessageID := some msg.id, lastMessageAt := some t2,
                         updatedAt := t2 }) ∧
      unreadCountOf (sendMessage db s c req t1 t2).1 c s = unreadCountOf db c s ∧
      (∀ u, u ≠ s → unreadCountOf (sendMessage db s c req t1 t2).1 c u =
        (unreadCountOf db c u).map (fun n => n + 1)) ∧
      (∀ c' u, c' ≠ c → unreadCountOf (sendMessage db s c req t1 t2).1 c' u =
        unreadCountOf db c' u) := by
  have hred : sendMessage db s c req t1 t2 =
      ((createMessage db c s req.parentMessageID req.content req.messageType
          req.mediaURL t1 t2).1,
       .ok (createMessage db c s req.parentMessageID req.content req.messageType
          req.mediaURL t1 t2).2,
       [{ type := .newMessage, conversationID := c, userID := s,
          message := some (createMessage db c s req.parentMessageID req.content
            req.messageType req.mediaURL t1 t2).2, data := none }]) := by
    simp [sendMessage, h]
  have hconvs : (sendMessage db s c req t1 t2).1.conversations =
      db.conversations.map (fun cv => if decide (cv.id = c) then
        { cv with lastMessageID := some db.nextMsgID, lastMessageAt := some t2,
                  updatedAt := t2 }
      else cv) := by rw [hred]; rfl
  have hparts : (sendMessage db s c req t1 t2).1.participants =
      db.participants.map (fun p => if decide (p.conversationID = c ∧ p.userID ≠ s) then
        { p with unreadCount := p.unreadCount + 1 }
      else p) := by rw [hred]; rfl
  refine ⟨(createMessage db c s req.parentMessageID req.content req.messageType
      req.mediaURL t1 t2).2, by rw [hred], rfl, rfl, rfl, rfl, ?_, ?_, ?_, ?_⟩
  · intro cv hcv
    unfold conversationRow at hcv ⊢
    rw [hconvs, find?_map_pred_inv _ _ (fun a => by
      by_cases hg : a.id = c <;> simp [hg]), hcv, Option.map_some']
    have hid := List.find?_some hcv
    simp only [decide_eq_true_eq] at hid
    simp only [hid, decide_True, if_true]
    rfl
  · unfold unreadCountOf participantRow
    rw [hparts, find?_map_untouched _ _ (fun a => by
        by_cases hg : a.conversationID = c ∧ a.userID ≠ s <;> simp [hg])
      (fun a ha => by
        simp only [decide_eq_true_eq] at ha
        have : ¬ (a.conversationID = c ∧ a.userID ≠ s) := fun hc => hc.2 ha.2
        simp [this])]
  · intro u hu
    unfold unreadCountOf participantRow
    rw [hparts, find?_map_pred_inv _ _ (fun a => by
      by_cases hg : a.conversationID = c ∧ a.userID ≠ s <;> simp [hg])]
    cases hfind : db.participants.find? fun p =>
        decide (p.conversationID = c ∧ p.userID = u) with
    | none => rfl
    | some p =>
      have hp := List.find?_some hfind
      simp only [decide_eq_true_eq] at hp
      have hguard : p.conversationID = c ∧ p.userID ≠ s := ⟨hp.1, hp.2 ▸ hu⟩
      simp [hguard]
  · intro c' u hc'
    unfold unreadCountOf participantRow
    rw [hparts, find?_map_untouched _ _ (fun a => by
        by_cases hg : a.conversationID = c ∧ a.userID ≠ s <;> simp [hg])
      (fun a ha => by
        simp only [decide_eq_true_eq] at ha
        have : ¬ (a.conversationID = c ∧ a.userID ≠ s) := fun hcon => hc' (ha.1 ▸ hcon.1)
        simp [this])]

/-- Witness for C1 amended: user 1 sends into conversation 1 of the
counterexample store; user 2's counter goes from 0 to 1, the sender's stays 0,
and the conversation's last-message pointer is set to the new message id. -/
theorem sendMessage_unread_and_pointer_witness :
    isParticipant wDB1 1 1 = true ∧
    unreadCountOf (sendMessage wDB1 1 1 wReq1 10 11).1 1 2 = some 1 ∧
    unreadCountOf (sendMessage wDB1 1 1 wReq1 10 11).1 1 1 = some 0 ∧
    conversationRow (sendMessage wDB1 1 1 wReq1 10 11).1 1 =
      some { id := 1, convType := "group", name := some "g", createdBy := some 1,
             lastMessageID := some 1, lastMessageAt := some 11, createdAt := 1,
             updatedAt := 11 } := by
  have h : isParticipant wDB1 1 1 = true := by decide
  obtain ⟨msg, hok, hid, hc, hs, ht, hptr, hsend, hother, hframe⟩ :=
    sendMessage_unread_and_pointer wDB1 1 1 wReq1 10 11 h
  refine ⟨h, ?_, ?_, ?_⟩
  · have := hother 2 (by decide)
    rw [this]
    rfl
  · rw [hsend]
    rfl
  · have hp := hptr wConv1 rfl
    rw [hp, hid]
    rfl

/-! ## C4: get-or-create for direct conversations -/

/-- find? respects pointwise-equal predicates. -/
theorem find?_congr {α : Type} (p q : α → Bool) (h : ∀ x, p x = q x) :
    ∀ l : List α, l.find? p = l.find? q := by
  intro l
  induction l with
  | nil => rfl
  | cons x xs ih =>
    by_cases hx : q x = true
    · rw [List.find?_cons_of_pos _ (by rw [h]; exact hx), List.find?_cons_of_pos _ hx]
    · rw [List.find?_cons_of_neg _ (by rw [h]; exact hx), List.find?_cons_of_neg _ hx, ih]

/-- find? skips a prefix on which the predicate is everywhere false. -/
theorem find?_append_none {α : Type} (p : α → Bool) :
    ∀ (l1 : List α), (∀ x ∈ l1, p x = false) → ∀ l2, (l1 ++ l2).find? p = l2.find? p := by
  intro l1
  induction l1 with
  | nil => intro _ l2; rfl
  | cons x xs ih =>
    intro h l2
    rw [List.cons_append, List.find?_cons_of_neg _ (by
      rw [h x (List.mem_cons_self x xs)]; exact Bool.false_ne_true),
      ih (fun y hy => h y (List.mem_cons_of_mem x hy)) l2]

/-- find? keeps a hit found in the prefix. -/
theorem find?_append_of_some {α : Type} (p : α → Bool) :
    ∀ (l1 : List α) (x : α), l1.find? p = some x → ∀ l2, (l1 ++ l2).find? p = some x := by
  intro l1
  induction l1 with
  | nil => intro x h; simp [List.find?] at h
  | cons y ys ih =>
    intro x h l2
    by_cases hy : p y = true
    · rw [List.find?_cons_of_pos _ hy] at h
      rw [List.cons_append, List.find?_cons_of_pos _ hy]
      exact h
    · rw [List.find?_cons_of_neg _ hy] at h
      rw [List.cons_append, List.find?_cons_of_neg _ hy]
      exact ih x h l2

/-- Reassociation of a three-way conjunction of Bools. -/
theorem bool_and_right_comm (x y z : Bool) : ((x && y) && z) = ((x && z) && y) := by
  cases x <;> cases y <;> cases z <;> rfl

/-- The pair query is symmetric in the two users. -/
theorem directPairMatch_symm (db : DB) (a b : Int) (cv : Conversation) :
    directPairMatch db b a cv = directPairMatch db a b cv := by
  unfold directPairMatch
  exact bool_and_right_comm _ _ _

/-- Evaluation of the creation path of CreateConversation for a direct request
whose pair lookup failed, in a store whose next conversation id is fresh. -/
theorem createConversation_direct_fresh (db : DB) (a b : Int) (now : Nat)
    (hgdnone : getDirectConversation db a b = .error .conversationNotFound)
    (hab : a ≠ b)
    (hfreshP : ∀ p ∈ db.participants, p.conversationID ≠ db.nextConvID) :
    createConversation db a { convType := "direct", participantIDs := [b], name := none }
      now =
      (let db3 : DB :=
        { conversations := db.conversations ++ [newDirectConv db a now],
          participants := (db.participants ++ [adminRow db.nextConvID a now]) ++
            [memberRow db.nextConvID b now],
          messages := db.messages,
          nextConvID := db.nextConvID + 1,
          nextMsgID := db.nextMsgID }
       (db3, getConversationByID db3 db.nextConvID a)) := by
  have hany1 : (db.participants.any fun p =>
      decide (p.conversationID = db.nextConvID ∧ p.userID = a)) = false := by
    rw [List.any_eq_false]
    intro p hp
    simp [hfreshP p hp]
  have hany2 : ((db.participants ++ [adminRow db.nextConvID a now]).any fun p =>
      decide (p.conversationID = db.nextConvID ∧ p.userID = b)) = false := by
    rw [List.any_eq_false]
    intro p hp
    rcases List.mem_append.mp hp with hl | hr
    · simp [hfreshP p hl]
    · rw [List.mem_singleton.mp hr]
      simp [adminRow, hab]
  have hdecba : decide (b ≠ a) = true := decide_eq_true (fun hh => hab hh.symm)
  unfold createConversation
  simp only [List.length_cons, List.length_nil]
  rw [hgdnone]
  simp only [Except.toOption]
  unfold createConversationRepo addParticipant
  simp only [List.foldl_cons, List.foldl_nil]
  have hadminrole : (if ("admin" : String) = "" then "member" else "admin") = "admin" := rfl
  have hmemberrole : (if ("member" : String) = "" then "member" else "member") = "member" := rfl
  simp only [hadminrole, hmemberrole]
  simp only [hany1, hdecba, Bool.false_eq_true, if_false, if_true]
  simp only [adminRow] at hany2
  simp only [hany2, Bool.false_eq_true, if_false]
  simp only [and_self, ite_self]
  simp only [newDirectConv, adminRow, memberRow]

/-- Counterexample to C4 as stated: with a direct conversation for the pair
already stored (user 1 has left it), getOrCreateDirect(1, 2) creates a second
direct conversation for the same unordered pair — the store goes from one to
two direct conversations matching the pair query for users 1 and 2. -/
theorem getOrCreateDirect_duplicate_after_leave :
    (wDB4.conversations.filter (directPairMatch wDB4 1 2)).length = 1 ∧
    (((getOrCreateDirectConversation wDB4 1 2 30).1.conversations).filter
      (directPairMatch (getOrCreateDirectConversation wDB4 1 2 30).1 1 2)).length = 2 := by
  constructor
  · rfl
  · rfl

/-- C4 amended: (stability) when the first call returns a conversation that is
the store's first pair match and both users are active participants of it,
calling again — with the arguments in either order — returns the very same
conversation and leaves the store untouched, so no duplicate is created;
(creation) when no conversation matches the pair query at all, the call
creates one fresh direct conversation with the creator as an active admin
participant and the other user as an active member participant. A duplicate
can be created exactly when the matched conversation has a participant who
left (the counterexample). -/
theorem getOrCreateDirect_stable (db : DB) (a b : Int) (now now' : Nat)
    (db1 : DB) (conv : Conversation)
    (h1 : getOrCreateDirectConversation db a b now = (db1, .ok conv)) :
    (db1.conversations.find? (directPairMatch db1 a b) = some conv →
      conversationRow db1 conv.id = some conv →
      isParticipant db1 conv.id a = true →
      isParticipant db1 conv.id b = true →
      getOrCreateDirectConversation db1 a b now' = (db1, .ok conv) ∧
      getOrCreateDirectConversation db1 b a now' = (db1, .ok conv)) ∧
    (db.conversations.find? (directPairMatch db a b) = none → a ≠ b →
      (∀ cv ∈ db.conversations, cv.id ≠ db.nextConvID) →
      (∀ p ∈ db.participants, p.conversationID ≠ db.nextConvID) →
      conv.id = db.nextConvID ∧ conv.convType = "direct" ∧
      isParticipant db1 conv.id a = true ∧
      isParticipant db1 conv.id b = true ∧
      (participantRow db1 conv.id a).map (fun p => p.role) = some "admin" ∧
      (participantRow db1 conv.id b).map (fun p => p.role) = some "member") := by
  constructor
  · intro hfind hrow ha hb
    have hgd : getDirectConversation db1 a b = .ok conv := by
      unfold getDirectConversation
      rw [hfind]
      simp [getConversationByID, ha, hrow]
    have hfind' : db1.conversations.find? (directPairMatch db1 b a) = some conv := by
      rw [find?_congr _ _ (directPairMatch_symm db1 a b), hfind]
    have hgd' : getDirectConversation db1 b a = .ok conv := by
      unfold getDirectConversation
      rw [hfind']
      simp [getConversationByID, hb, hrow]
    constructor
    · unfold getOrCreateDirectConversation
      rw [hgd]
    · unfold getOrCreateDirectConversation
      rw [hgd']
  · intro hnone hab hfreshC hfreshP
    have hgdnone : getDirectConversation db a b = .error .conversationNotFound := by
      unfold getDirectConversation
      rw [hnone]
    have h1' : createConversation db a
        { convType := "direct", participantIDs := [b], name := none } now =
        (db1, .ok conv) := by
      have hh := h1
      unfold getOrCreateDirectConversation at hh
      rw [hgdnone] at hh
      exact hh
    rw [createConversation_direct_fresh db a b now hgdnone hab hfreshP] at h1'
    simp only at h1'
    -- name the created store
    have hq1 : ∀ p ∈ db.participants,
        (fun p => decide (p.conversationID = db.nextConvID ∧ p.userID = a)) p = false := by
      intro p hp
      simp [hfreshP p hp]
    have hq2 : ∀ p ∈ db.participants ++ [adminRow db.nextConvID a now],
        (fun p => decide (p.conversationID = db.nextConvID ∧ p.userID = b)) p = false := by
      intro p hp
      rcases List.mem_append.mp hp with hl | hr
      · simp [hfreshP p hl]
      · rw [List.mem_singleton.mp hr]
        simp [adminRow, hab]
    have hrowa : participantRow
        { conversations := db.conversations ++ [newDirectConv db a now],
          participants := (db.participants ++ [adminRow db.nextConvID a now]) ++
            [memberRow db.nextConvID b now],
          messages := db.messages,
          nextConvID := db.nextConvID + 1,
          nextMsgID := db.nextMsgID } db.nextConvID a = some (adminRow db.nextConvID a now) := by
      unfold participantRow
      apply find?_append_of_some
      rw [find?_append_none _ db.participants hq1]
      simp [adminRow]
    have hrowb : participantRow
        { conversations := db.conversations ++ [newDirectConv db a now],
          participants := (db.participants ++ [adminRow db.nextConvID a now]) ++
            [memberRow db.nextConvID b now],
          messages := db.messages,
          nextConvID := db.nextConvID + 1,
          nextMsgID := db.nextMsgID } db.nextConvID b = some (memberRow db.nextConvID b now) := by
      unfold participantRow
      rw [find?_append_none _ _ hq2]
      simp [memberRow]
    have hconvrow : conversationRow
        { conversations := db.conversations ++ [newDirectConv db a now],
          participants := (db.participants ++ [adminRow db.nextConvID a now]) ++
            [memberRow db.nextConvID b now],
          messages := db.messages,
          nextConvID := db.nextConvID + 1,
          nextMsgID := db.nextMsgID } db.nextConvID = some (newDirectConv db a now) := by
      unfold conversationRow
      rw [find?_append_none _ db.conversations (fun cv hcv => by simp [hfreshC cv hcv])]
      simp [newDirectConv]
    have hparta : isParticipant
        { conversations := db.conversations ++ [newDirectConv db a now],
          participants := (db.participants ++ [adminRow db.nextConvID a now]) ++
            [memberRow db.nextConvID b now],
          messages := db.messages,
          nextConvID := db.nextConvID + 1,
          nextMsgID := db.nextMsgID } db.nextConvID a = true := by
      unfold isParticipant
      rw [List.any_eq_true]
      refine ⟨adminRow db.nextConvID a now, ?_, by simp [adminRow]⟩
      exact List.mem_append_left _ (List.mem_append_right _ (List.mem_singleton.mpr rfl))
    have hpartb : isParticipant
        { conversations := db.conversations ++ [newDirectConv db a now],
          participants := (db.participants ++ [adminRow db.nextConvID a now]) ++
            [memberRow db.nextConvID b now],
          messages := db.messages,
          nextConvID := db.nextConvID + 1,
          nextMsgID := db.nextMsgID } db.nextConvID b = true := by
      unfold isParticipant
      rw [List.any_eq_true]
      refine ⟨memberRow db.nextConvID b now, ?_, by simp [memberRow]⟩
      exact List.mem_append_right _ (List.mem_singleton.mpr rfl)
    unfold getConversationByID at h1'
    rw [if_pos hparta, hconvrow] at h1'
    rw [Prod.mk.injEq] at h1'
    obtain ⟨hdb, hok⟩ := h1'
    have hconv : conv = newDirectConv db a now := by
      injection hok with hh
      exact hh.symm
    refine ⟨?_, ?_, ?_, ?_, ?_, ?_⟩
    · rw [hconv]; rfl
    · rw [hconv]; rfl
    · rw [← hdb, hconv]
      exact hparta
    · rw [← hdb, hconv]
      exact hpartb
    · rw [← hdb, hconv]
      rw [show (newDirectConv db a now).id = db.nextConvID from rfl, hrowa]
      rfl
    · rw [← hdb, hconv]
      rw [show (newDirectConv db a now).id = db.nextConvID from rfl, hrowb]
      rfl

/-- Witness for C4 amended: from an empty store, the first call creates the
conversation with user 1 as admin and user 2 as member, and repeated calls in
either argument order return the same conversation without touching the
store. -/
theorem getOrCreateDirect_stable_witness :
    getOrCreateDirectConversation wDB4w 1 2 10 = (wDB4r, .ok wConv4) ∧
    getOrCreateDirectConversation wDB4r 1 2 20 = (wDB4r, .ok wConv4) ∧
    getOrCreateDirectConversation wDB4r 2 1 20 = (wDB4r, .ok wConv4) ∧
    (participantRow wDB4r wConv4.id 1).map (fun p => p.role) = some "admin" ∧
    (participantRow wDB4r wConv4.id 2).map (fun p => p.role) = some "member" :=
  have h1 : getOrCreateDirectConversation wDB4w 1 2 10 = (wDB4r, .ok wConv4) := rfl
  have t := getOrCreateDirect_stable wDB4w 1 2 10 20 wDB4r wConv4 h1
  have ta := t.1 rfl rfl rfl rfl
  have tb := t.2 rfl (by decide) (by decide) (by decide)
  ⟨h1, ta.1, ta.2, tb.2.2.2.2.1, tb.2.2.2.2.2⟩

end Messaging
